import Mathlib

/-!
Verification of the File2PDF conversion dispatcher (`src/file_convert/src/app.py`,
class `ConversionWorker`).  The worker's `run` method, its four conversion
strategies and the path arithmetic they use are translated into executable Lean
definitions.  External effects (the PIL image decoder, reportlab canvas,
weasyprint, the filesystem and the LibreOffice subprocess) are modelled by an
explicit per-file environment `FileEnv` recording the outcome of each external
call; python exceptions are modelled by the `PyErr` type, and the PDF written to
the output path by the `PdfDoc` type.
-/

namespace FileConvert

/-! ### POSIX path helpers (`os.path.basename`, `os.path.splitext`,
`os.path.join`, `os.path.dirname`) -/

/-- `os.path.basename`: the part of the path after the last slash. -/
def basename (p : String) : String :=
  String.mk ((p.data.reverse.takeWhile (fun c => c ≠ '/')).reverse)

/-- `os.path.splitext` applied to a path's final component: split off the part
from the last dot, unless every character before that dot is itself a dot. -/
def splitextPair (b : List Char) : List Char × List Char :=
  let revb := b.reverse
  let afterRev := revb.takeWhile (fun c => c ≠ '.')
  if afterRev.length = revb.length then (b, [])
  else
    let beforeDot := (revb.drop (afterRev.length + 1)).reverse
    if beforeDot.any (fun c => c ≠ '.') then (beforeDot, '.' :: afterRev.reverse)
    else (b, [])

/-- `os.path.splitext(p)[1]` (the extension, with its dot). -/
def fileExt (p : String) : String := String.mk (splitextPair (basename p).data).2

/-- `os.path.splitext(os.path.basename(p))[0]` (the basename's stem). -/
def stem (p : String) : String := String.mk (splitextPair (basename p).data).1

/-- `str.lower()` (character-wise). -/
def lowerStr (s : String) : String := String.mk (s.data.map Char.toLower)

/-- `os.path.join` for one extra component, POSIX rules. -/
def joinPath (a b : String) : String :=
  if b.startsWith "/" then b
  else if a = "" then b
  else if a.endsWith "/" then a ++ b
  else a ++ "/" ++ b

/-- `os.path.dirname`, POSIX rules. -/
def dirname (p : String) : String :=
  let head := (p.data.reverse.dropWhile (fun c => c ≠ '/')).reverse
  if head.isEmpty then ""
  else if head.all (fun c => c = '/') then String.mk head
  else String.mk ((head.reverse.dropWhile (fun c => c = '/')).reverse)

/-! ### Python exceptions and external-call outcomes -/

/-- The exception classes the worker's code distinguishes: `ImportError` and
`OSError` (caught together by the HTML strategy), `subprocess.CalledProcessError`
(caught by the office strategy) and plain `Exception` (raised by the worker
itself when wrapping an error). -/
inductive PyErr where
  | importError (msg : String)
  | osError (msg : String)
  | calledProcessError (msg : String)
  | exception (msg : String)
deriving DecidableEq

/-- `str(e)`. -/
def pyStr : PyErr → String
  | .importError m => m
  | .osError m => m
  | .calledProcessError m => m
  | .exception m => m

/-- membership of the `except (ImportError, OSError)` clause. -/
def isImportOrOSError : PyErr → Bool
  | .importError _ => true
  | .osError _ => true
  | _ => false

/-- membership of the `except subprocess.CalledProcessError` clause. -/
def isCalledProcessError : PyErr → Bool
  | .calledProcessError _ => true
  | _ => false

/-- Whether the error is a plain `Exception` raised by the worker's own
wrapping code (as opposed to a raw library/OS error). -/
def isPyException : PyErr → Bool
  | .exception _ => true
  | _ => false

/-- The PDF document written to the output path, as far as the code determines
its content: page geometry and draw commands for the reportlab strategies, and
the delegated input for weasyprint / LibreOffice. -/
inductive PdfDoc where
  | imagePdf (pageW pageH : Nat) (draws : List (String × Nat × Nat × Nat × Nat))
  | textPdf (font : String) (content : List (Nat × Int × String))
  | weasyPdf (html : String)
  | officePdf (src : String)
deriving DecidableEq

/-- `platform.system()`. -/
inductive Platform where
  | darwin | windows | linux
deriving DecidableEq

/-- Outcomes of every external call a single file's conversion can make.
`Except PyErr _` fields model calls that return a value or raise; `Option PyErr`
fields model calls that either succeed silently or raise the recorded error. -/
structure FileEnv where
  /-- `PIL.Image.open` followed by `.size`: pixel `(width, height)` or an error. -/
  imageOpen : Except PyErr (Nat × Nat)
  /-- `canvas.Canvas(...)` / `c.drawImage(...)` (before the 80% tick). -/
  imageDraw : Option PyErr
  /-- `c.save()` (after the 80% tick). -/
  imageSave : Option PyErr
  /-- `open(file).readlines()` with `errors='replace'`: the lines or an OS error. -/
  textRead : Except PyErr (List String)
  /-- whether `pdfmetrics.registerFont(TTFont('Courier', 'Courier'))` succeeds. -/
  courierAvailable : Bool
  /-- canvas creation / `drawString` loop (between the 70% and 90% ticks). -/
  textDraw : Option PyErr
  /-- `c.save()` in the text strategy (after the 90% tick). -/
  textSave : Option PyErr
  /-- `import weasyprint`: `none` when the import succeeds. -/
  weasyImport : Option PyErr
  /-- `open(file).read()` in the weasyprint branch. -/
  htmlRead : Except PyErr String
  /-- `weasyprint.HTML(string=...).write_pdf(...)`: `none` on success. -/
  weasyRender : Option PyErr
  /-- `os.path.exists`. -/
  pathExists : String → Bool
  /-- result of `which soffice` when it exits 0 with nonempty output. -/
  whichSoffice : Option String
  /-- `os.environ.get("PROGRAMFILES")`. -/
  programFiles : Option String
  /-- `subprocess.run([soffice, ...], check=True)`: `none` when it exits 0. -/
  sofficeRun : Option PyErr
  /-- `os.path.exists(generated_pdf)` after the conversion ran. -/
  generatedExists : Bool
  /-- `os.rename(generated_pdf, output_path)`: `none` on success. -/
  renameErr : Option PyErr

/-- One `update_progress.emit(pct, current_file)` call. -/
abbrev Emission := Nat × String

/-! ### Text layout (`convert_text_to_pdf`, lines 135-146)

US Letter is 612x792 points, `inch` is 72 points, so the cursor starts at
`y = 792 - 72 = 720` and steps down `line_height = 14` per line; before drawing
a line, if `y < 72` the code starts a new page and resets `y` to `720`. -/

/-- `line.rstrip('\n')`. -/
def rstripNl (s : String) : String :=
  String.mk ((s.data.reverse.dropWhile (fun c => c = '\n')).reverse)

/-- The `for line in text` loop: current page index and cursor, producing one
`(page, y, text)` draw command per line. -/
def textLayoutAux : List String → Nat → Int → List (Nat × Int × String)
  | [], _, _ => []
  | line :: rest, page, y =>
    if y < 72 then
      (page + 1, 720, rstripNl line) :: textLayoutAux rest (page + 1) (720 - 14)
    else
      (page, y, rstripNl line) :: textLayoutAux rest page (y - 14)

/-- Layout of a whole file: first page, cursor at `height - inch`. -/
def textLayout (lines : List String) : List (Nat × Int × String) :=
  textLayoutAux lines 0 (11 * 72 - 72)

/-- Number of pages in the finished PDF: one more than the page index of the
last drawn line (reportlab's `save` emits the pending page; an empty file still
produces a single blank page). -/
def numPages (lines : List String) : Nat :=
  match (textLayout lines).getLast? with
  | none => 1
  | some e => e.1 + 1

/-! ### The four conversion strategies -/

/-- An `except Exception as e: raise Exception(prefix + str(e))` wrapper around
a strategy body. -/
def wrapErr (msgPre : String) :
    List Emission × Except PyErr PdfDoc → List Emission × Except PyErr PdfDoc
  | (ems, .ok d) => (ems, .ok d)
  | (ems, .error e) => (ems, .error (.exception (msgPre ++ pyStr e)))

/-- `ConversionWorker.convert_image_to_pdf` (lines 83-105). -/
def convert_image_to_pdf (env : FileEnv) (filePath cur : String) :
    List Emission × Except PyErr PdfDoc :=
  wrapErr "Image conversion failed: " <|
    match env.imageOpen with
    | .error e => ([(30, cur)], .error e)
    | .ok (w, h) =>
      match env.imageDraw with
      | some e => ([(30, cur), (50, cur)], .error e)
      | none =>
        match env.imageSave with
        | some e => ([(30, cur), (50, cur), (80, cur)], .error e)
        | none =>
          ([(30, cur), (50, cur), (80, cur), (100, cur)],
           .ok (.imagePdf w h [(filePath, 0, 0, w, h)]))

/-- `ConversionWorker.convert_text_to_pdf` (lines 107-154). -/
def convert_text_to_pdf (env : FileEnv) (cur : String) :
    List Emission × Except PyErr PdfDoc :=
  wrapErr "Text conversion failed: " <|
    match env.textRead with
    | .error e => ([(30, cur)], .error e)
    | .ok lines =>
      match env.textDraw with
      | some e => ([(30, cur), (50, cur), (70, cur)], .error e)
      | none =>
        match env.textSave with
        | some e => ([(30, cur), (50, cur), (70, cur), (90, cur)], .error e)
        | none =>
          ([(30, cur), (50, cur), (70, cur), (90, cur), (100, cur)],
           .ok (.textPdf (if env.courierAvailable then "Courier" else "Helvetica")
                  (textLayout lines)))

/-- `ConversionWorker.convert_html_to_pdf` (lines 156-178): try weasyprint,
fall back to the text strategy on `ImportError` or `OSError`, and wrap anything
that still escapes as "HTML conversion failed". -/
def convert_html_to_pdf (env : FileEnv) (cur : String) :
    List Emission × Except PyErr PdfDoc :=
  wrapErr "HTML conversion failed: " <|
    match env.weasyImport with
    | some e =>
      if isImportOrOSError e then convert_text_to_pdf env cur
      else ([], .error e)
    | none =>
      match env.htmlRead with
      | .error e =>
        if isImportOrOSError e then
          ((30, cur) :: (convert_text_to_pdf env cur).1, (convert_text_to_pdf env cur).2)
        else ([(30, cur)], .error e)
      | .ok html =>
        match env.weasyRender with
        | some e =>
          if isImportOrOSError e then
            ((30, cur) :: (60, cur) :: (convert_text_to_pdf env cur).1,
             (convert_text_to_pdf env cur).2)
          else ([(30, cur), (60, cur)], .error e)
        | none => ([(30, cur), (60, cur), (100, cur)], .ok (.weasyPdf html))

def sofficeDefaultMac : String := "/Applications/LibreOffice.app/Contents/MacOS/soffice"

def sofficeAltMac : String := "/Applications/LibreOffice.app/Contents/MacOS/soffice.bin"

/-- Locating the LibreOffice binary (lines 184-219). -/
def resolveSoffice (pf : Platform) (env : FileEnv) : String :=
  match pf with
  | .darwin =>
    if env.pathExists sofficeDefaultMac then sofficeDefaultMac
    else
      let p := if env.pathExists sofficeAltMac then sofficeAltMac else sofficeDefaultMac
      if env.pathExists p then p
      else
        match env.whichSoffice with
        | some w => w
        | none => p
  | .windows =>
    (env.programFiles.getD "C:\\Program Files") ++ "\\LibreOffice\\program\\soffice.exe"
  | .linux => "libreoffice"

/-- `ConversionWorker.convert_using_libreoffice` (lines 180-251).  Note that
only `subprocess.CalledProcessError` is caught and wrapped; any other error
raised by `subprocess.run` or `os.rename` propagates unchanged. -/
def convert_using_libreoffice (pf : Platform) (env : FileEnv)
    (filePath cur outputPath : String) : List Emission × Except PyErr PdfDoc :=
  let soffice := resolveSoffice pf env
  if env.pathExists soffice = false ∧ pf ≠ Platform.linux then
    ([(20, cur)],
     .error (.exception
       "LibreOffice not found. Please install LibreOffice to convert Office documents."))
  else
    match env.sofficeRun with
    | some e =>
      if isCalledProcessError e then
        ([(20, cur), (40, cur)],
         .error (.exception ("LibreOffice conversion failed: " ++ pyStr e)))
      else
        ([(20, cur), (40, cur)], .error e)
    | none =>
      let generated := joinPath (dirname outputPath) (stem filePath ++ ".pdf")
      if env.generatedExists ∧ generated ≠ outputPath then
        match env.renameErr with
        | some e => ([(20, cur), (40, cur), (80, cur)], .error e)
        | none => ([(20, cur), (40, cur), (80, cur), (100, cur)], .ok (.officePdf filePath))
      else ([(20, cur), (40, cur), (80, cur), (100, cur)], .ok (.officePdf filePath))

/-! ### Dispatch (`ConversionWorker.run`, lines 52-62) -/

def imageExts : List String := [".jpg", ".jpeg", ".png", ".bmp", ".gif", ".tiff"]

def textExts : List String := [".txt", ".md", ".csv"]

def officeExts : List String :=
  [".doc", ".docx", ".ppt", ".pptx", ".xls", ".xlsx", ".odt", ".ods", ".odp"]

inductive Strategy where
  | image | text | html | office
deriving DecidableEq

/-- The `if/elif` chain on the lowercased extension. -/
def selectStrategy (ext : String) : Option Strategy :=
  if ext ∈ imageExts then some .image
  else if ext ∈ textExts then some .text
  else if ext = ".html" then some .html
  else if ext ∈ officeExts then some .office
  else none

/-- Conversion of one file: route on the lowercased extension, or raise
`Unsupported file type` naming it. -/
def convertFile (pf : Platform) (env : FileEnv) (filePath cur outputPath : String) :
    List Emission × Except PyErr PdfDoc :=
  match selectStrategy (lowerStr (fileExt filePath)) with
  | some .image => convert_image_to_pdf env filePath cur
  | some .text => convert_text_to_pdf env cur
  | some .html => convert_html_to_pdf env cur
  | some .office => convert_using_libreoffice pf env filePath cur outputPath
  | none =>
    ([], .error (.exception ("Unsupported file type: " ++ lowerStr (fileExt filePath))))

/-! ### The job loop (`ConversionWorker.run`, lines 33-81) -/

/-- The three pyqt signals the worker emits, in emission order. -/
inductive Event where
  | updateProgress (pct : Nat) (file : String)
  | fileComplete (name : String) (ok : Bool) (detail : String)
  | conversionComplete (ok : Bool) (msg : String)
deriving DecidableEq

/-- `int(((i + 1) / total_files) * 100)` (line 74), read over exact arithmetic:
truncation of the exact ratio, i.e. natural division. -/
def progressPct (k n : Nat) : Nat := 100 * k / n

/-- `os.path.join(self.output_dir, f"{file_name}.pdf")` (lines 45-46). -/
def outputPathOf (outDir f : String) : String := joinPath outDir (stem f ++ ".pdf")

def resOk : Except PyErr PdfDoc → Bool
  | .ok _ => true
  | .error _ => false

/-- One iteration of the `for i, file_path in enumerate(...)` loop: the 5%
tick, the strategy's emissions, the per-file `file_complete` signal, the
overall progress tick, plus this file's contribution to `overall_success` and
`error_messages`. -/
def fileBlock (pf : Platform) (env : FileEnv) (outDir f : String) (i n : Nat) :
    List Event × Bool × List String :=
  let cur := basename f
  let r := convertFile pf env f cur (outputPathOf outDir f)
  let ticks := Event.updateProgress 5 cur :: r.1.map (fun e => Event.updateProgress e.1 e.2)
  match r.2 with
  | .ok _ =>
    (ticks ++ [.fileComplete cur true (outputPathOf outDir f),
               .updateProgress (progressPct (i + 1) n) ""],
     true, [])
  | .error e =>
    (ticks ++ [.fileComplete cur false (pyStr e),
               .updateProgress (progressPct (i + 1) n) ""],
     false, ["Failed to convert " ++ basename f ++ ": " ++ pyStr e])

/-- The loop over the remaining files, starting at index `i` of `n` files. -/
def runFiles (pf : Platform) (envMap : String → FileEnv) (outDir : String) (n : Nat) :
    List String → Nat → List Event × Bool × List String
  | [], _ => ([], true, [])
  | f :: rest, i =>
    let b := fileBlock pf (envMap f) outDir f i n
    let r := runFiles pf envMap outDir n rest (i + 1)
    (b.1 ++ r.1, b.2.1 && r.2.1, b.2.2 ++ r.2.2)

/-- The job-level outcome surfaced to the shell. -/
structure JobOutput where
  events : List Event
  overallSuccess : Bool
  errorMessages : List String
  finalMessage : String

/-- `ConversionWorker.run`: process every file in order, then emit
`conversion_complete` with the fixed success string or the newline-joined
error messages. -/
def run (pf : Platform) (envMap : String → FileEnv) (outDir : String)
    (files : List String) : JobOutput :=
  let r := runFiles pf envMap outDir files.length files 0
  let msg := if r.2.1 then "All conversions completed successfully!"
             else String.intercalate "\n" r.2.2
  { events := r.1 ++ [.conversionComplete r.2.1 msg]
    overallSuccess := r.2.1
    errorMessages := r.2.2
    finalMessage := msg }

/-- The per-file `(name, success, detail)` results, in emission order. -/
def resultsOf (evs : List Event) : List (String × Bool × String) :=
  evs.filterMap fun e =>
    match e with
    | .fileComplete n s d => some (n, s, d)
    | _ => none

/-- The `(name, success, detail)` triple `run` reports for one file. -/
def fileResult (pf : Platform) (env : FileEnv) (outDir f : String) :
    String × Bool × String :=
  match (convertFile pf env f (basename f) (outputPathOf outDir f)).2 with
  | .ok _ => (basename f, true, outputPathOf outDir f)
  | .error e => (basename f, false, pyStr e)

/-- Whether one file's conversion succeeds. -/
def fileOk (pf : Platform) (env : FileEnv) (outDir f : String) : Bool :=
  resOk (convertFile pf env f (basename f) (outputPathOf outDir f)).2

/-- The one configuration in which the HTML strategy emits a percentage lower
than an earlier one: weasyprint imports, the file reads, and `write_pdf` raises
an `ImportError`/`OSError` after the 60% tick, so the text fallback restarts
at 30%. -/
def htmlLateFallback (env : FileEnv) : Bool :=
  match env.weasyImport, env.htmlRead, env.weasyRender with
  | none, .ok _, some e => isImportOrOSError e
  | _, _, _ => false

/-- Closed form for the text cursor: line `i` is drawn at
`y = 720 - 14 * (i mod 47)` (47 lines fit between `y = 720` and the one-inch
bottom margin). -/
def lineY (i : Nat) : Int := 720 - 14 * ((i % 47 : Nat) : Int)

/-- Whether a percentage sequence never decreases. -/
def nonDecreasing : List Nat → Bool
  | [] => true
  | [_] => true
  | a :: b :: t => a ≤ b && nonDecreasing (b :: t)

/-! ### Layout lemmas -/

theorem textLayoutAux_length (ls : List String) (p : Nat) (y : Int) :
    (textLayoutAux ls p y).length = ls.length := by
  induction ls generalizing p y with
  | nil => rfl
  | cons l rest ih =>
    simp only [textLayoutAux]
    split <;> simp [ih]

theorem textLayoutAux_get? (ls : List String) (p k i : Nat) (hk : k ≤ 47) :
    (textLayoutAux ls p (720 - 14 * (k : Int))).get? i
      = (ls.get? i).map (fun t => (p + (k + i) / 47, 720 - 14 * (((k + i) % 47 : Nat) : Int),
          rstripNl t)) := by
  induction ls generalizing p k i with
  | nil => simp [textLayoutAux]
  | cons l rest ih =>
    by_cases hk47 : k = 47
    · subst hk47
      have hcond : (720 : Int) - 14 * ((47 : Nat) : Int) < 72 := by norm_num
      simp only [textLayoutAux, if_pos hcond]
      cases i with
      | zero => simp
      | succ j =>
        show (textLayoutAux rest (p + 1) (720 - 14)).get? j
            = (rest.get? j).map (fun t =>
                (p + (47 + (j + 1)) / 47, 720 - 14 * (((47 + (j + 1)) % 47 : Nat) : Int),
                 rstripNl t))
        have h14 : (720 : Int) - 14 = 720 - 14 * ((1 : Nat) : Int) := by norm_num
        rw [h14, ih (p + 1) 1 j (by norm_num)]
        have h1 : p + 1 + (1 + j) / 47 = p + (47 + (j + 1)) / 47 := by omega
        have h2 : (1 + j) % 47 = (47 + (j + 1)) % 47 := by omega
        have hfun : (fun t => (p + 1 + (1 + j) / 47,
              720 - 14 * (((1 + j) % 47 : Nat) : Int), rstripNl t))
            = (fun t : String => (p + (47 + (j + 1)) / 47,
                720 - 14 * (((47 + (j + 1)) % 47 : Nat) : Int), rstripNl t)) := by
          funext t
          rw [h1, h2]
        rw [hfun]
    · have hk46 : k ≤ 46 := by omega
      have hcond : ¬ ((720 : Int) - 14 * ((k : Nat) : Int) < 72) := by
        have : ((k : Nat) : Int) ≤ 46 := by exact_mod_cast hk46
        omega
      simp only [textLayoutAux, if_neg hcond]
      cases i with
      | zero =>
        have h1 : p = p + k / 47 := by omega
        have h2 : k % 47 = k := by omega
        simp only [List.get?_cons_zero, Option.map_some', Nat.add_zero, h2, ← h1]
      | succ j =>
        show (textLayoutAux rest p (720 - 14 * ((k : Nat) : Int) - 14)).get? j
            = (rest.get? j).map (fun t =>
                (p + (k + (j + 1)) / 47, 720 - 14 * (((k + (j + 1)) % 47 : Nat) : Int),
                 rstripNl t))
        have h14 : (720 : Int) - 14 * ((k : Nat) : Int) - 14
            = 720 - 14 * (((k + 1 : Nat)) : Int) := by push_cast; ring
        rw [h14, ih p (k + 1) j (by omega)]
        have h1 : p + (k + 1 + j) / 47 = p + (k + (j + 1)) / 47 := by omega
        have h2 : (k + 1 + j) % 47 = (k + (j + 1)) % 47 := by omega
        have hfun : (fun t => (p + (k + 1 + j) / 47,
              720 - 14 * (((k + 1 + j) % 47 : Nat) : Int), rstripNl t))
            = (fun t : String => (p + (k + (j + 1)) / 47,
                720 - 14 * (((k + (j + 1)) % 47 : Nat) : Int), rstripNl t)) := by
          funext t
          rw [h1, h2]
        rw [hfun]

theorem textLayout_get? (ls : List String) (i : Nat) :
    (textLayout ls).get? i
      = (ls.get? i).map (fun t => (i / 47, lineY i, rstripNl t)) := by
  have h : (11 * 72 - 72 : Int) = 720 - 14 * ((0 : Nat) : Int) := by norm_num
  rw [textLayout, h, textLayoutAux_get? ls 0 0 i (by norm_num)]
  simp [lineY]

theorem numPages_of_long (ls : List String) (h : 47 < ls.length) : 1 < numPages ls := by
  have hlen : (textLayout ls).length = ls.length := textLayoutAux_length ls 0 _
  have hidx : ls.length - 1 < ls.length := by omega
  have hget : ls.get? (ls.length - 1) = some (ls.get ⟨ls.length - 1, hidx⟩) :=
    List.get?_eq_get hidx
  have hlast : (textLayout ls).getLast? = (textLayout ls).get? ((textLayout ls).length - 1) :=
    List.getLast?_eq_get? _
  simp only [numPages, hlast, hlen, textLayout_get?, hget, Option.map_some']
  have h47 : 0 < (ls.length - 1) / 47 := by
    have : 47 ≤ ls.length - 1 := by omega
    exact Nat.div_pos this (by norm_num)
  omega

/-! ### Structural lemmas about the job loop -/

theorem resultsOf_append (a b : List Event) :
    resultsOf (a ++ b) = resultsOf a ++ resultsOf b :=
  List.filterMap_append a b _

theorem resultsOf_ticks (ems : List Emission) :
    resultsOf (ems.map (fun e => Event.updateProgress e.1 e.2)) = [] := by
  induction ems with
  | nil => rfl
  | cons e t ih => simpa [resultsOf, List.filterMap_cons] using ih

theorem fileBlock_shape (pf : Platform) (env : FileEnv) (outDir f : String) (i n : Nat) :
    ∃ ticks,
      (fileBlock pf env outDir f i n).1
        = ticks ++ [Event.fileComplete (fileResult pf env outDir f).1
                      (fileResult pf env outDir f).2.1 (fileResult pf env outDir f).2.2,
                    Event.updateProgress (progressPct (i + 1) n) ""]
      ∧ resultsOf ticks = [] := by
  refine ⟨Event.updateProgress 5 (basename f)
    :: (convertFile pf env f (basename f) (outputPathOf outDir f)).1.map
        (fun e => Event.updateProgress e.1 e.2), ?_, ?_⟩
  · cases h : (convertFile pf env f (basename f) (outputPathOf outDir f)).2 with
    | ok d => simp [fileBlock, fileResult, h]
    | error e => simp [fileBlock, fileResult, h]
  · simpa [resultsOf, List.filterMap_cons] using
      resultsOf_ticks (convertFile pf env f (basename f) (outputPathOf outDir f)).1

theorem fileBlock_results (pf : Platform) (env : FileEnv) (outDir f : String) (i n : Nat) :
    resultsOf (fileBlock pf env outDir f i n).1 = [fileResult pf env outDir f] := by
  obtain ⟨ticks, hb, ht⟩ := fileBlock_shape pf env outDir f i n
  rw [hb, resultsOf_append, ht]
  rfl

theorem fileBlock_ok (pf : Platform) (env : FileEnv) (outDir f : String) (i n : Nat) :
    (fileBlock pf env outDir f i n).2.1 = fileOk pf env outDir f := by
  cases h : (convertFile pf env f (basename f) (outputPathOf outDir f)).2 with
  | ok d => simp [fileBlock, fileOk, resOk, h]
  | error e => simp [fileBlock, fileOk, resOk, h]

theorem fileBlock_errlen (pf : Platform) (env : FileEnv) (outDir f : String) (i n : Nat) :
    (fileBlock pf env outDir f i n).2.2.length
      = (if fileOk pf env outDir f then 0 else 1) := by
  cases h : (convertFile pf env f (basename f) (outputPathOf outDir f)).2 with
  | ok d => simp [fileBlock, fileOk, resOk, h]
  | error e => simp [fileBlock, fileOk, resOk, h]

theorem runFiles_results (pf : Platform) (envMap : String → FileEnv) (outDir : String)
    (n : Nat) (fs : List String) (i : Nat) :
    resultsOf (runFiles pf envMap outDir n fs i).1
      = fs.map (fun f => fileResult pf (envMap f) outDir f) := by
  induction fs generalizing i with
  | nil => rfl
  | cons f rest ih =>
    simp only [runFiles, resultsOf_append, fileBlock_results, ih, List.map_cons]
    rfl

theorem runFiles_ok (pf : Platform) (envMap : String → FileEnv) (outDir : String)
    (n : Nat) (fs : List String) (i : Nat) :
    (runFiles pf envMap outDir n fs i).2.1
      = fs.all (fun f => fileOk pf (envMap f) outDir f) := by
  induction fs generalizing i with
  | nil => rfl
  | cons f rest ih => simp [runFiles, fileBlock_ok, ih]

theorem runFiles_errlen (pf : Platform) (envMap : String → FileEnv) (outDir : String)
    (n : Nat) (fs : List String) (i : Nat) :
    (runFiles pf envMap outDir n fs i).2.2.length
      = fs.countP (fun f => ! fileOk pf (envMap f) outDir f) := by
  induction fs generalizing i with
  | nil => rfl
  | cons f rest ih =>
    simp only [runFiles, List.length_append, fileBlock_errlen, ih, List.countP_cons]
    by_cases h : fileOk pf (envMap f) outDir f <;> simp [h] <;> omega

theorem runFiles_split (pf : Platform) (envMap : String → FileEnv) (outDir : String)
    (n : Nat) (fs : List String) (i j : Nat) (hj : j < fs.length) :
    ∃ A B ok d,
      (runFiles pf envMap outDir n fs i).1
        = A ++ Event.fileComplete (basename (fs.get ⟨j, hj⟩)) ok d
            :: Event.updateProgress (progressPct (i + j + 1) n) "" :: B
      ∧ (resultsOf A).length = j := by
  induction fs generalizing i j with
  | nil => exact absurd hj (by simp)
  | cons f rest ih =>
    cases j with
    | zero =>
      obtain ⟨ticks, hb, ht⟩ := fileBlock_shape pf (envMap f) outDir f i n
      refine ⟨ticks, (runFiles pf envMap outDir n rest (i + 1)).1,
        (fileResult pf (envMap f) outDir f).2.1, (fileResult pf (envMap f) outDir f).2.2,
        ?_, by simp [ht]⟩
      have hname : (fileResult pf (envMap f) outDir f).1 = basename f := by
        cases h : (convertFile pf (envMap f) f (basename f) (outputPathOf outDir f)).2 <;>
          simp [fileResult, h]
      simp only [runFiles, hb, hname]
      simp [List.append_assoc]
    | succ j' =>
      have hj' : j' < rest.length := by simpa using hj
      obtain ⟨A, B, ok, d, hsplit, hlen⟩ := ih (i + 1) j' hj'
      refine ⟨(fileBlock pf (envMap f) outDir f i n).1 ++ A, B, ok, d, ?_, ?_⟩
      · have hidx : (i + 1) + j' + 1 = i + (j' + 1) + 1 := by omega
        simp only [runFiles, hsplit, List.append_assoc, hidx]
        rfl
      · simp [resultsOf_append, fileBlock_results, hlen]

/-! ### Per-strategy emission/outcome case analyses -/

theorem wrapErr_fst (msgPre : String) (pr : List Emission × Except PyErr PdfDoc) :
    (wrapErr msgPre pr).1 = pr.1 := by
  obtain ⟨ems, res⟩ := pr
  cases res <;> rfl

theorem wrapErr_resOk (msgPre : String) (pr : List Emission × Except PyErr PdfDoc) :
    resOk (wrapErr msgPre pr).2 = resOk pr.2 := by
  obtain ⟨ems, res⟩ := pr
  cases res <;> rfl

theorem wrapErr_error (msgPre : String) (pr : List Emission × Except PyErr PdfDoc) (e : PyErr)
    (h : (wrapErr msgPre pr).2 = .error e) : ∃ c, e = .exception (msgPre ++ c) := by
  obtain ⟨ems, res⟩ := pr
  cases res with
  | ok d => simp [wrapErr] at h
  | error e0 =>
    simp [wrapErr] at h
    exact ⟨pyStr e0, h.symm⟩

theorem image_pcts (env : FileEnv) (f cur : String) :
    ((convert_image_to_pdf env f cur).1.map Prod.fst = [30, 50, 80, 100]
      ∧ resOk (convert_image_to_pdf env f cur).2 = true)
    ∨ (((convert_image_to_pdf env f cur).1.map Prod.fst = [30]
        ∨ (convert_image_to_pdf env f cur).1.map Prod.fst = [30, 50]
        ∨ (convert_image_to_pdf env f cur).1.map Prod.fst = [30, 50, 80])
      ∧ resOk (convert_image_to_pdf env f cur).2 = false) := by
  simp only [convert_image_to_pdf, wrapErr_fst, wrapErr_resOk]
  cases hio : env.imageOpen with
  | error e => right; exact ⟨Or.inl (by simp), by simp [resOk]⟩
  | ok wh =>
    obtain ⟨w, h⟩ := wh
    cases hdr : env.imageDraw with
    | some e => right; exact ⟨Or.inr (Or.inl (by simp)), by simp [resOk]⟩
    | none =>
      cases hsv : env.imageSave with
      | some e => right; exact ⟨Or.inr (Or.inr (by simp)), by simp [resOk]⟩
      | none => left; exact ⟨by simp, by simp [resOk]⟩

theorem text_pcts (env : FileEnv) (cur : String) :
    ((convert_text_to_pdf env cur).1.map Prod.fst = [30, 50, 70, 90, 100]
      ∧ resOk (convert_text_to_pdf env cur).2 = true)
    ∨ (((convert_text_to_pdf env cur).1.map Prod.fst = [30]
        ∨ (convert_text_to_pdf env cur).1.map Prod.fst = [30, 50, 70]
        ∨ (convert_text_to_pdf env cur).1.map Prod.fst = [30, 50, 70, 90])
      ∧ resOk (convert_text_to_pdf env cur).2 = false) := by
  simp only [convert_text_to_pdf, wrapErr_fst, wrapErr_resOk]
  cases htr : env.textRead with
  | error e => right; exact ⟨Or.inl (by simp), by simp [resOk]⟩
  | ok lines =>
    cases hdr : env.textDraw with
    | some e => right; exact ⟨Or.inr (Or.inl (by simp)), by simp [resOk]⟩
    | none =>
      cases hsv : env.textSave with
      | some e => right; exact ⟨Or.inr (Or.inr (by simp)), by simp [resOk]⟩
      | none => left; exact ⟨by simp, by simp [resOk]⟩

theorem office_pcts (pf : Platform) (env : FileEnv) (f cur out : String) :
    ((convert_using_libreoffice pf env f cur out).1.map Prod.fst = [20, 40, 80, 100]
      ∧ resOk (convert_using_libreoffice pf env f cur out).2 = true)
    ∨ (((convert_using_libreoffice pf env f cur out).1.map Prod.fst = [20]
        ∨ (convert_using_libreoffice pf env f cur out).1.map Prod.fst = [20, 40]
        ∨ (convert_using_libreoffice pf env f cur out).1.map Prod.fst = [20, 40, 80])
      ∧ resOk (convert_using_libreoffice pf env f cur out).2 = false) := by
  by_cases hnf : (env.pathExists (resolveSoffice pf env) = false ∧ pf ≠ Platform.linux)
  · right
    refine ⟨Or.inl ?_, ?_⟩ <;> simp [convert_using_libreoffice, hnf, resOk]
  · cases hso : env.sofficeRun with
    | some e =>
      by_cases hcpe : isCalledProcessError e = true
      · right
        refine ⟨Or.inr (Or.inl ?_), ?_⟩ <;>
          simp [convert_using_libreoffice, hnf, hso, hcpe, resOk]
      · right
        refine ⟨Or.inr (Or.inl ?_), ?_⟩ <;>
          simp [convert_using_libreoffice, hnf, hso, hcpe, resOk]
    | none =>
      by_cases hgen : (env.generatedExists = true
          ∧ joinPath (dirname out) (stem f ++ ".pdf") ≠ out)
      · cases hre : env.renameErr with
        | some e =>
          right
          refine ⟨Or.inr (Or.inr ?_), ?_⟩ <;>
            simp [convert_using_libreoffice, hnf, hso, hgen, hre, resOk]
        | none =>
          left
          refine ⟨?_, ?_⟩ <;>
            simp [convert_using_libreoffice, hnf, hso, hgen, hre, resOk]
      · left
        refine ⟨?_, ?_⟩ <;>
          simp [convert_using_libreoffice, hnf, hso, hgen, resOk]

theorem html_pcts (env : FileEnv) (cur : String) :
    ((convert_html_to_pdf env cur).1.map Prod.fst = [30, 60, 100]
      ∧ resOk (convert_html_to_pdf env cur).2 = true)
    ∨ (((convert_html_to_pdf env cur).1.map Prod.fst = []
        ∨ (convert_html_to_pdf env cur).1.map Prod.fst = [30]
        ∨ (convert_html_to_pdf env cur).1.map Prod.fst = [30, 60])
      ∧ resOk (convert_html_to_pdf env cur).2 = false)
    ∨ (((convert_html_to_pdf env cur).1.map Prod.fst
          = (convert_text_to_pdf env cur).1.map Prod.fst
        ∨ (convert_html_to_pdf env cur).1.map Prod.fst
          = 30 :: (convert_text_to_pdf env cur).1.map Prod.fst)
      ∧ resOk (convert_html_to_pdf env cur).2 = resOk (convert_text_to_pdf env cur).2)
    ∨ (htmlLateFallback env = true
      ∧ (convert_html_to_pdf env cur).1.map Prod.fst
          = 30 :: 60 :: (convert_text_to_pdf env cur).1.map Prod.fst
      ∧ resOk (convert_html_to_pdf env cur).2 = resOk (convert_text_to_pdf env cur).2) := by
  cases hwi : env.weasyImport with
  | some e =>
    by_cases hcls : isImportOrOSError e = true
    · right; right; left
      refine ⟨Or.inl ?_, ?_⟩ <;>
        simp [convert_html_to_pdf, wrapErr_fst, wrapErr_resOk, hwi, hcls]
    · right; left
      refine ⟨Or.inl ?_, ?_⟩ <;>
        simp [convert_html_to_pdf, wrapErr_fst, wrapErr, hwi, hcls, resOk]
  | none =>
    cases hhr : env.htmlRead with
    | error e =>
      by_cases hcls : isImportOrOSError e = true
      · right; right; left
        refine ⟨Or.inr ?_, ?_⟩ <;>
          simp [convert_html_to_pdf, wrapErr_fst, wrapErr_resOk, hwi, hhr, hcls]
      · right; left
        refine ⟨Or.inr (Or.inl ?_), ?_⟩ <;>
          simp [convert_html_to_pdf, wrapErr_fst, wrapErr, hwi, hhr, hcls, resOk]
    | ok html =>
      cases hwr : env.weasyRender with
      | some e =>
        by_cases hcls : isImportOrOSError e = true
        · right; right; right
          refine ⟨?_, ?_, ?_⟩
          · simp [htmlLateFallback, hwi, hhr, hwr, hcls]
          · simp [convert_html_to_pdf, wrapErr_fst, wrapErr_resOk, hwi, hhr, hwr, hcls]
          · simp [convert_html_to_pdf, wrapErr_fst, wrapErr_resOk, hwi, hhr, hwr, hcls]
        · right; left
          refine ⟨Or.inr (Or.inr ?_), ?_⟩ <;>
            simp [convert_html_to_pdf, wrapErr_fst, wrapErr, hwi, hhr, hwr, hcls, resOk]
      | none =>
        left
        refine ⟨?_, ?_⟩ <;>
          simp [convert_html_to_pdf, wrapErr_fst, wrapErr, hwi, hhr, hwr, resOk]

/-! ### Concrete environments used by witnesses and counterexamples -/

/-- An environment in which every external call succeeds. -/
def envOk : FileEnv where
  imageOpen := .ok (2, 3)
  imageDraw := none
  imageSave := none
  textRead := .ok ["hello"]
  courierAvailable := true
  textDraw := none
  textSave := none
  weasyImport := none
  htmlRead := .ok "<p>"
  weasyRender := none
  pathExists := fun _ => true
  whichSoffice := none
  programFiles := none
  sofficeRun := none
  generatedExists := false
  renameErr := none

/-- weasyprint imports and the file reads, but `write_pdf` raises an `OSError`
after the 60% tick. -/
def envHtmlLate : FileEnv := { envOk with weasyRender := some (.osError "cairo failure") }

/-- `subprocess.run` raises a raw `OSError` (the Linux default `libreoffice`
binary does not exist, so `FileNotFoundError` escapes). -/
def envOffRaw : FileEnv :=
  { envOk with sofficeRun := some (.osError "No such file or directory: libreoffice") }

/-- `PIL.Image.open` fails. -/
def envImgErr : FileEnv := { envOk with imageOpen := .error (.exception "boom") }

/-- `import weasyprint` raises `ImportError`. -/
def envNoWeasy : FileEnv :=
  { envOk with weasyImport := some (.importError "No module named weasyprint") }

/-! ### Remaining auxiliary lemmas -/

theorem fileResult_fst (pf : Platform) (env : FileEnv) (outDir f : String) :
    (fileResult pf env outDir f).1 = basename f := by
  cases h : (convertFile pf env f (basename f) (outputPathOf outDir f)).2 <;>
    simp [fileResult, h]

theorem fileResult_okFlag (pf : Platform) (env : FileEnv) (outDir f : String) :
    (fileResult pf env outDir f).2.1 = fileOk pf env outDir f := by
  cases h : (convertFile pf env f (basename f) (outputPathOf outDir f)).2 <;>
    simp [fileResult, fileOk, resOk, h]

theorem run_results (pf : Platform) (envMap : String → FileEnv) (outDir : String)
    (files : List String) :
    resultsOf (run pf envMap outDir files).events
      = files.map (fun f => fileResult pf (envMap f) outDir f) := by
  simp only [run]
  rw [resultsOf_append, runFiles_results]
  simp [resultsOf]

theorem countP_bool_split {α : Type} (l : List α) (p : α → Bool) :
    l.countP (fun a => ! p a) = l.length - l.countP p := by
  induction l with
  | nil => rfl
  | cons a t ih =>
    have hle := List.countP_le_length (p := p) (l := t)
    by_cases h : p a = true <;> simp [List.countP_cons, h, ih] <;> omega

/-! ### The claims -/

/-- C1: the dispatcher selects the conversion strategy solely from the file's
lowercased extension by the fixed routing table (image for
.jpg/.jpeg/.png/.bmp/.gif/.tiff, text for .txt/.md/.csv, HTML for .html, office
for .doc/.docx/.ppt/.pptx/.xls/.xlsx/.odt/.ods/.odp), and any extension outside
the table makes the file's conversion fail with an error naming that
extension. -/
theorem C1_dispatch_table (ext : String) (pf : Platform) (env : FileEnv)
    (f cur out : String) :
    (selectStrategy ext = some Strategy.image ↔ ext ∈ imageExts)
    ∧ (selectStrategy ext = some Strategy.text ↔ ext ∈ textExts)
    ∧ (selectStrategy ext = some Strategy.html ↔ ext = ".html")
    ∧ (selectStrategy ext = some Strategy.office ↔ ext ∈ officeExts)
    ∧ (selectStrategy (lowerStr (fileExt f)) = none →
        convertFile pf env f cur out
          = ([], .error (.exception ("Unsupported file type: " ++ lowerStr (fileExt f))))) := by
  refine ⟨?_, ?_, ?_, ?_, ?_⟩
  · constructor
    · intro h
      simp only [selectStrategy] at h
      split_ifs at h with h1 h2 h3 h4
      all_goals first | exact h1 | exact h2 | exact h3 | exact h4 | exact absurd h (by decide)
    · intro hm
      simp only [selectStrategy]
      rw [if_pos hm]
  · constructor
    · intro h
      simp only [selectStrategy] at h
      split_ifs at h with h1 h2 h3 h4
      all_goals first | exact h1 | exact h2 | exact h3 | exact h4 | exact absurd h (by decide)
    · intro hm
      have hm' : ext = ".txt" ∨ ext = ".md" ∨ ext = ".csv" := by
        simpa [textExts] using hm
      rcases hm' with rfl | rfl | rfl <;> rfl
  · constructor
    · intro h
      simp only [selectStrategy] at h
      split_ifs at h with h1 h2 h3 h4
      all_goals first | exact h1 | exact h2 | exact h3 | exact h4 | exact absurd h (by decide)
    · rintro rfl
      rfl
  · constructor
    · intro h
      simp only [selectStrategy] at h
      split_ifs at h with h1 h2 h3 h4
      all_goals first | exact h1 | exact h2 | exact h3 | exact h4 | exact absurd h (by decide)
    · intro hm
      have hm' : ext = ".doc" ∨ ext = ".docx" ∨ ext = ".ppt" ∨ ext = ".pptx"
          ∨ ext = ".xls" ∨ ext = ".xlsx" ∨ ext = ".odt" ∨ ext = ".ods"
          ∨ ext = ".odp" := by
        simpa [officeExts] using hm
      rcases hm' with rfl | rfl | rfl | rfl | rfl | rfl | rfl | rfl | rfl <;> rfl
  · intro h
    simp [convertFile, h]

theorem C1_witness :
    selectStrategy ".jpg" = some Strategy.image
    ∧ convertFile .linux envOk "weird.xyz" "weird.xyz" "out/weird.pdf"
        = ([], .error (.exception ("Unsupported file type: " ++ lowerStr (fileExt "weird.xyz")))) := by
  have h := C1_dispatch_table ".jpg" .linux envOk "weird.xyz" "weird.xyz" "out/weird.pdf"
  exact ⟨h.1.mpr (by decide), h.2.2.2.2 rfl⟩

/-- C2: for a job of N files of which K succeed, the summary's overall success
flag is true iff K = N; on success the message is the fixed success string,
otherwise it is the newline-join of the per-file failure messages, of which
there are exactly N - K. -/
theorem C2_job_summary (pf : Platform) (envMap : String → FileEnv) (outDir : String)
    (files : List String) :
    ((run pf envMap outDir files).overallSuccess = true
      ↔ (resultsOf (run pf envMap outDir files).events).countP (fun r => r.2.1)
          = files.length)
    ∧ ((run pf envMap outDir files).overallSuccess = true →
        (run pf envMap outDir files).finalMessage
          = "All conversions completed successfully!")
    ∧ ((run pf envMap outDir files).overallSuccess = false →
        (run pf envMap outDir files).finalMessage
            = String.intercalate "\n" (run pf envMap outDir files).errorMessages
        ∧ (run pf envMap outDir files).errorMessages.length
            = files.length
              - (resultsOf (run pf envMap outDir files).events).countP (fun r => r.2.1)) := by
  have hK : (resultsOf (run pf envMap outDir files).events).countP (fun r => r.2.1)
      = files.countP (fun f => fileOk pf (envMap f) outDir f) := by
    rw [run_results, List.countP_map]
    apply List.countP_congr
    intro a _
    simp [Function.comp, fileResult_okFlag]
  have hov : (run pf envMap outDir files).overallSuccess
      = files.all (fun f => fileOk pf (envMap f) outDir f) := by
    simp only [run]
    exact runFiles_ok pf envMap outDir files.length files 0
  refine ⟨?_, ?_, ?_⟩
  · rw [hov, hK, List.all_eq_true, List.countP_eq_length]
  · intro h
    have h' : (runFiles pf envMap outDir files.length files 0).2.1 = true := h
    show (if (runFiles pf envMap outDir files.length files 0).2.1 = true
        then "All conversions completed successfully!"
        else String.intercalate "\n" (runFiles pf envMap outDir files.length files 0).2.2)
      = "All conversions completed successfully!"
    rw [if_pos h']
  · intro h
    have h' : (runFiles pf envMap outDir files.length files 0).2.1 = false := h
    constructor
    · show (if (runFiles pf envMap outDir files.length files 0).2.1 = true
          then "All conversions completed successfully!"
          else String.intercalate "\n" (runFiles pf envMap outDir files.length files 0).2.2)
        = String.intercalate "\n" (runFiles pf envMap outDir files.length files 0).2.2
      rw [if_neg (by simp [h'])]
    · show (runFiles pf envMap outDir files.length files 0).2.2.length
        = files.length
          - (resultsOf (run pf envMap outDir files).events).countP (fun r => r.2.1)
      rw [runFiles_errlen, countP_bool_split, hK]

theorem C2_witness :
    (run .linux (fun _ => envOk) "out" ["a.xyz"]).finalMessage
        = String.intercalate "\n" (run .linux (fun _ => envOk) "out" ["a.xyz"]).errorMessages
    ∧ (run .linux (fun _ => envOk) "out" ["a.xyz"]).errorMessages.length = 1 :=
  (C2_job_summary .linux (fun _ => envOk) "out" ["a.xyz"]).2.2 rfl

/-- C3: a per-file failure never aborts the job: every file in the list yields
exactly one per-file result (in order, named by its basename), and the job
always ends with the aggregated completion signal. -/
theorem C3_no_abort (pf : Platform) (envMap : String → FileEnv) (outDir : String)
    (files : List String) (i : Nat) (hi : i < files.length) :
    (resultsOf (run pf envMap outDir files).events).length = files.length
    ∧ (resultsOf (run pf envMap outDir files).events).get? i
        = some (fileResult pf (envMap (files.get ⟨i, hi⟩)) outDir (files.get ⟨i, hi⟩))
    ∧ (fileResult pf (envMap (files.get ⟨i, hi⟩)) outDir (files.get ⟨i, hi⟩)).1
        = basename (files.get ⟨i, hi⟩)
    ∧ (run pf envMap outDir files).events.getLast?
        = some (.conversionComplete (run pf envMap outDir files).overallSuccess
            (run pf envMap outDir files).finalMessage) := by
  refine ⟨?_, ?_, fileResult_fst _ _ _ _, ?_⟩
  · rw [run_results, List.length_map]
  · rw [run_results, List.get?_map, List.get?_eq_get hi]
    rfl
  · exact List.getLast?_concat _

theorem C3_witness :
    (resultsOf (run .linux (fun _ => envOk) "out" ["a.txt"]).events).length = 1
    ∧ (resultsOf (run .linux (fun _ => envOk) "out" ["a.txt"]).events).get? 0
        = some (fileResult .linux envOk "out" "a.txt") := by
  have h := C3_no_abort .linux (fun _ => envOk) "out" ["a.txt"] 0 (by decide)
  exact ⟨h.1, h.2.1⟩

/-- C4 counterexample: on Linux with the `libreoffice` binary missing,
`subprocess.run` raises a raw `OSError`; the office strategy's
`except subprocess.CalledProcessError` clause does not catch it, so the raw
OS error reaches the dispatcher unwrapped (not a worker-raised `Exception`
carrying the strategy-specific message). -/
theorem C4_counterexample :
    (convert_using_libreoffice .linux envOffRaw "d.docx" "d.docx" "out/d.pdf").2
        = Except.error (PyErr.osError "No such file or directory: libreoffice")
    ∧ isPyException (PyErr.osError "No such file or directory: libreoffice") = false :=
  ⟨rfl, rfl⟩

/-- C4 (amended): the image, text and HTML strategies wrap every underlying
error in their strategy-specific message; the office strategy wraps only the
converter's nonzero-exit failure (`CalledProcessError`) and its own "not found"
check, while a non-`CalledProcessError` error from launching the process or
renaming the output propagates to the dispatcher unwrapped. -/
theorem C4_amended_wrapping (pf : Platform) (env : FileEnv) (f cur out : String) :
    (∀ e, (convert_image_to_pdf env f cur).2 = Except.error e →
        ∃ c, e = PyErr.exception ("Image conversion failed: " ++ c))
    ∧ (∀ e, (convert_text_to_pdf env cur).2 = Except.error e →
        ∃ c, e = PyErr.exception ("Text conversion failed: " ++ c))
    ∧ (∀ e, (convert_html_to_pdf env cur).2 = Except.error e →
        ∃ c, e = PyErr.exception ("HTML conversion failed: " ++ c))
    ∧ (∀ e, (convert_using_libreoffice pf env f cur out).2 = Except.error e →
        (∃ c, e = PyErr.exception ("LibreOffice conversion failed: " ++ c))
        ∨ e = PyErr.exception
            "LibreOffice not found. Please install LibreOffice to convert Office documents."
        ∨ (env.sofficeRun = some e ∧ isCalledProcessError e = false)
        ∨ env.renameErr = some e) := by
  refine ⟨fun e h => wrapErr_error _ _ e h, fun e h => wrapErr_error _ _ e h,
    fun e h => wrapErr_error _ _ e h, ?_⟩
  rintro e h
  by_cases hnf : (env.pathExists (resolveSoffice pf env) = false ∧ pf ≠ Platform.linux)
  · right; left
    simp [convert_using_libreoffice, hnf] at h
    exact h.symm
  · cases hso : env.sofficeRun with
    | some e0 =>
      by_cases hcpe : isCalledProcessError e0 = true
      · left
        simp [convert_using_libreoffice, hnf, hso, hcpe] at h
        exact ⟨pyStr e0, h.symm⟩
      · right; right; left
        simp [convert_using_libreoffice, hnf, hso, hcpe] at h
        have hc : isCalledProcessError e0 = false := by simpa using hcpe
        subst h
        exact ⟨rfl, hc⟩
    | none =>
      by_cases hgen : (env.generatedExists = true
          ∧ joinPath (dirname out) (stem f ++ ".pdf") ≠ out)
      · cases hre : env.renameErr with
        | some e0 =>
          right; right; right
          simp [convert_using_libreoffice, hnf, hso, hgen, hre] at h
          subst h
          exact rfl
        | none =>
          simp [convert_using_libreoffice, hnf, hso, hgen, hre] at h
      · simp [convert_using_libreoffice, hnf, hso, hgen] at h

theorem C4_witness :
    ∃ c, PyErr.exception "Image conversion failed: boom"
        = PyErr.exception ("Image conversion failed: " ++ c) :=
  (C4_amended_wrapping .linux envImgErr "a.jpg" "a.jpg" "o.pdf").1
    (PyErr.exception "Image conversion failed: boom") rfl

/-- C5: when weasyprint is unavailable (its import raises `ImportError` or
`OSError`) and the text conversion succeeds, the HTML strategy is literally the
Text strategy run on the same file - identical emissions and identical output
document - and is reported as a success. -/
theorem C5_html_fallback (env : FileEnv) (cur : String) (e : PyErr)
    (him : env.weasyImport = some e) (hcls : isImportOrOSError e = true)
    (hok : resOk (convert_text_to_pdf env cur).2 = true) :
    convert_html_to_pdf env cur = convert_text_to_pdf env cur
    ∧ resOk (convert_html_to_pdf env cur).2 = true := by
  have hinner : convert_html_to_pdf env cur
      = wrapErr "HTML conversion failed: " (convert_text_to_pdf env cur) := by
    simp [convert_html_to_pdf, him, hcls]
  obtain ⟨d, hd⟩ : ∃ d, (convert_text_to_pdf env cur).2 = Except.ok d := by
    cases hres : (convert_text_to_pdf env cur).2 with
    | ok d => exact ⟨d, rfl⟩
    | error e0 =>
      rw [hres] at hok
      simp [resOk] at hok
  have heq : wrapErr "HTML conversion failed: " (convert_text_to_pdf env cur)
      = convert_text_to_pdf env cur := by
    cases hp : convert_text_to_pdf env cur with
    | mk ems res =>
      rw [hp] at hd
      have hd' : res = Except.ok d := hd
      rw [hd']
      rfl
  exact ⟨hinner.trans heq, by rw [hinner.trans heq]; exact hok⟩

theorem C5_witness :
    convert_html_to_pdf envNoWeasy "a.html" = convert_text_to_pdf envNoWeasy "a.html"
    ∧ resOk (convert_html_to_pdf envNoWeasy "a.html").2 = true :=
  C5_html_fallback envNoWeasy "a.html" (.importError "No module named weasyprint")
    rfl rfl rfl

/-- C6: the text strategy draws line i on page i/47 at
y = 720 - 14·(i mod 47); the cursor starts at 11in - 1in = 720pt, steps down a
constant 14pt, starts a new page exactly when the next position would fall
below the one-inch (72pt) bottom margin, and a file with more lines than fit on
one page (47) produces a multi-page PDF. -/
theorem C6_text_layout (ls : List String) (i : Nat) :
    ((textLayout ls).get? i = (ls.get? i).map (fun t => (i / 47, lineY i, rstripNl t)))
    ∧ lineY 0 = 11 * 72 - 72
    ∧ (lineY i - 14 < 72 → (i + 1) / 47 = i / 47 + 1 ∧ lineY (i + 1) = 720)
    ∧ (¬ lineY i - 14 < 72 → (i + 1) / 47 = i / 47 ∧ lineY (i + 1) = lineY i - 14)
    ∧ (47 < ls.length → 1 < numPages ls) := by
  refine ⟨textLayout_get? ls i, by norm_num [lineY], ?_, ?_, numPages_of_long ls⟩
  · intro h
    simp only [lineY] at h ⊢
    constructor <;> omega
  · intro h
    simp only [lineY] at h ⊢
    constructor <;> omega

theorem C6_witness :
    1 < numPages (List.replicate 48 "x")
    ∧ ((46 + 1) / 47 = 46 / 47 + 1 ∧ lineY (46 + 1) = 720) := by
  have h := C6_text_layout (List.replicate 48 "x") 46
  exact ⟨h.2.2.2.2 (by decide), h.2.2.1 (by decide)⟩

/-- C7: when the image decodes with pixel size w x h and the canvas calls
succeed, the image strategy produces a PDF whose page size is exactly (w, h)
with the full image drawn over the whole page from the origin. -/
theorem C7_image_page_size (env : FileEnv) (f cur : String) (w h : Nat)
    (hopen : env.imageOpen = .ok (w, h)) (hdraw : env.imageDraw = none)
    (hsave : env.imageSave = none) :
    (convert_image_to_pdf env f cur).2 = .ok (.imagePdf w h [(f, 0, 0, w, h)]) := by
  simp [convert_image_to_pdf, hopen, hdraw, hsave, wrapErr]

theorem C7_witness :
    (convert_image_to_pdf envOk "a.jpg" "a.jpg").2
        = .ok (.imagePdf 2 3 [("a.jpg", 0, 0, 2, 3)]) :=
  C7_image_page_size envOk "a.jpg" "a.jpg" 2 3 rfl rfl rfl

/-- C8 counterexample: after 2 of 3 files the worker emits
int((2/3)·100) = 66, but round(100·2/3) = 67, so the emitted overall
percentage is not round(100·completed/total). -/
theorem C8_counterexample :
    (run .linux (fun _ => envOk) "out" ["a.xyz", "b.xyz", "c.xyz"]).events.get? 5
        = some (Event.updateProgress (progressPct 2 3) "")
    ∧ progressPct 2 3 = 66
    ∧ round ((100 * 2 : ℚ) / 3) = 67
    ∧ (66 : ℤ) ≠ 67 := by
  refine ⟨rfl, rfl, ?_, by decide⟩
  rw [round_eq, show (100 * 2 : ℚ) / 3 + 1 / 2 = 403 / 6 by norm_num, Int.floor_eq_iff]
  norm_num

/-- C8 (amended): immediately after the i-th file's per-file completion signal
the worker emits the overall percentage floor(100·(i+1)/N) - truncation of the
exact ratio, not rounding. -/
theorem C8_amended_floor (pf : Platform) (envMap : String → FileEnv) (outDir : String)
    (files : List String) (i : Nat) (hi : i < files.length) :
    (∃ A B ok d,
      (run pf envMap outDir files).events
        = A ++ Event.fileComplete (basename (files.get ⟨i, hi⟩)) ok d
            :: Event.updateProgress (progressPct (i + 1) files.length) "" :: B
      ∧ (resultsOf A).length = i)
    ∧ progressPct (i + 1) files.length
        = Nat.floor (((100 * (i + 1) : Nat) : ℚ) / ((files.length : Nat) : ℚ)) := by
  constructor
  · obtain ⟨A, B, ok, d, h1, h2⟩ := runFiles_split pf envMap outDir files.length files 0 i hi
    have hidx : 0 + i + 1 = i + 1 := by omega
    rw [hidx] at h1
    refine ⟨A, B ++ [Event.conversionComplete (run pf envMap outDir files).overallSuccess
        (run pf envMap outDir files).finalMessage], ok, d, ?_, h2⟩
    have hev : (run pf envMap outDir files).events
        = (runFiles pf envMap outDir files.length files 0).1
          ++ [Event.conversionComplete (run pf envMap outDir files).overallSuccess
              (run pf envMap outDir files).finalMessage] := rfl
    rw [hev, h1]
    simp [List.append_assoc]
  · rw [Nat.floor_div_nat, Nat.floor_natCast]
    rfl

theorem C8_witness :
    ∃ A B ok d,
      (run .linux (fun _ => envOk) "out" ["a.xyz", "b.xyz"]).events
        = A ++ Event.fileComplete (basename "a.xyz") ok d
            :: Event.updateProgress (progressPct 1 2) "" :: B
      ∧ (resultsOf A).length = 0 :=
  (C8_amended_floor .linux (fun _ => envOk) "out" ["a.xyz", "b.xyz"] 0 (by decide)).1

/-- C9 counterexample: for an .html file where weasyprint imports and reads the
file but `write_pdf` raises an `OSError` after the 60% tick, the silent text
fallback restarts at 30%, so the per-file progress sequence
[30, 60, 30, 50, 70, 90, 100] is not non-decreasing. -/
theorem C9_counterexample :
    (convert_html_to_pdf envHtmlLate "p.html").1.map Prod.fst
        = [30, 60, 30, 50, 70, 90, 100]
    ∧ nonDecreasing ((convert_html_to_pdf envHtmlLate "p.html").1.map Prod.fst) = false :=
  ⟨rfl, rfl⟩

/-- C9 (amended): a file's strategy emissions are non-decreasing except in the
HTML runtime-fallback configuration (renderer present but failing after the 60%
tick), and a file that converts successfully emits 100 as its last strategy
emission, hence before the next file starts; a failing file may never reach
100. -/
theorem C9_amended_monotone (pf : Platform) (env : FileEnv) (f cur out : String) :
    ((htmlLateFallback env = false
        ∨ selectStrategy (lowerStr (fileExt f)) ≠ some Strategy.html) →
      nonDecreasing ((convertFile pf env f cur out).1.map Prod.fst) = true)
    ∧ (resOk (convertFile pf env f cur out).2 = true →
      ((convertFile pf env f cur out).1.map Prod.fst).getLast? = some 100) := by
  cases hS : selectStrategy (lowerStr (fileExt f)) with
  | none =>
    constructor
    · intro _
      simp [convertFile, hS, nonDecreasing]
    · intro hok
      simp [convertFile, hS, resOk] at hok
  | some s =>
    cases s with
    | image =>
      have hc : convertFile pf env f cur out = convert_image_to_pdf env f cur := by
        simp [convertFile, hS]
      rw [hc]
      rcases image_pcts env f cur with ⟨h1, h2⟩ | ⟨h1, h2⟩
      · exact ⟨fun _ => by rw [h1]; rfl, fun _ => by rw [h1]; rfl⟩
      · refine ⟨fun _ => ?_, fun hok => ?_⟩
        · rcases h1 with h | h | h <;> rw [h] <;> rfl
        · rw [h2] at hok
          exact Bool.noConfusion hok
    | text =>
      have hc : convertFile pf env f cur out = convert_text_to_pdf env cur := by
        simp [convertFile, hS]
      rw [hc]
      rcases text_pcts env cur with ⟨h1, h2⟩ | ⟨h1, h2⟩
      · exact ⟨fun _ => by rw [h1]; rfl, fun _ => by rw [h1]; rfl⟩
      · refine ⟨fun _ => ?_, fun hok => ?_⟩
        · rcases h1 with h | h | h <;> rw [h] <;> rfl
        · rw [h2] at hok
          exact Bool.noConfusion hok
    | office =>
      have hc : convertFile pf env f cur out
          = convert_using_libreoffice pf env f cur out := by
        simp [convertFile, hS]
      rw [hc]
      rcases office_pcts pf env f cur out with ⟨h1, h2⟩ | ⟨h1, h2⟩
      · exact ⟨fun _ => by rw [h1]; rfl, fun _ => by rw [h1]; rfl⟩
      · refine ⟨fun _ => ?_, fun hok => ?_⟩
        · rcases h1 with h | h | h <;> rw [h] <;> rfl
        · rw [h2] at hok
          exact Bool.noConfusion hok
    | html =>
      have hc : convertFile pf env f cur out = convert_html_to_pdf env cur := by
        simp [convertFile, hS]
      rw [hc]
      rcases html_pcts env cur with ⟨h1, h2⟩ | ⟨h1, h2⟩ | ⟨h1, h2⟩ | ⟨hlate, h1, h2⟩
      · exact ⟨fun _ => by rw [h1]; rfl, fun _ => by rw [h1]; rfl⟩
      · refine ⟨fun _ => ?_, fun hok => ?_⟩
        · rcases h1 with h | h | h <;> rw [h] <;> rfl
        · rw [h2] at hok
          exact Bool.noConfusion hok
      · refine ⟨fun _ => ?_, fun hok => ?_⟩
        · rcases h1 with h | h
          · rw [h]
            rcases text_pcts env cur with ⟨ht, _⟩ | ⟨ht, _⟩
            · rw [ht]; rfl
            · rcases ht with ht | ht | ht <;> rw [ht] <;> rfl
          · rw [h]
            rcases text_pcts env cur with ⟨ht, _⟩ | ⟨ht, _⟩
            · rw [ht]; rfl
            · rcases ht with ht | ht | ht <;> rw [ht] <;> rfl
        · rw [h2] at hok
          rcases text_pcts env cur with ⟨ht, _⟩ | ⟨ht, hok2⟩
          · rcases h1 with h | h <;> rw [h, ht] <;> rfl
          · rw [hok2] at hok
            exact Bool.noConfusion hok
      · refine ⟨fun hcond => ?_, fun hok => ?_⟩
        · rcases hcond with hfalse | hne
          · rw [hlate] at hfalse
            exact Bool.noConfusion hfalse
          · exact absurd rfl hne
        · rw [h2] at hok
          rcases text_pcts env cur with ⟨ht, _⟩ | ⟨ht, hok2⟩
          · rw [h1, ht]
            rfl
          · rw [hok2] at hok
            exact Bool.noConfusion hok

theorem C9_witness :
    nonDecreasing ((convertFile .linux envOk "a.txt" "a.txt" "out/a.pdf").1.map Prod.fst)
        = true
    ∧ ((convertFile .linux envOk "a.txt" "a.txt" "out/a.pdf").1.map Prod.fst).getLast?
        = some 100 := by
  have h := C9_amended_monotone .linux envOk "a.txt" "a.txt" "out/a.pdf"
  exact ⟨h.1 (Or.inl rfl), h.2 rfl⟩

/-- C10: every file's output path is `<outputDir>/<stem>.pdf`, determined only
by the job's output directory and the basename's stem, so two input files with
equal stems target the identical output path (the later conversion then
overwrites the earlier output on disk). -/
theorem C10_output_path (outDir p q : String) (h : stem p = stem q) :
    outputPathOf outDir p = joinPath outDir (stem p ++ ".pdf")
    ∧ outputPathOf outDir p = outputPathOf outDir q := by
  refine ⟨rfl, ?_⟩
  simp only [outputPathOf, h]

theorem C10_witness :
    outputPathOf "out" "a/report.txt" = joinPath "out" (stem "a/report.txt" ++ ".pdf")
    ∧ outputPathOf "out" "a/report.txt" = outputPathOf "out" "b/report.md" :=
  C10_output_path "out" "a/report.txt" "b/report.md" rfl

end FileConvert
